import Mathlib

/-!
Shallow embedding of the arXiv notifier bot sources (database/database.py,
config/config.py, src/arxiv_search.py, src/arxiv_bot.py).

The two SQLite tables are modelled as lists of rows kept in insertion
(rowid) order; `INSERT OR IGNORE` becomes a guarded append, `DELETE`
becomes a filter.  The arXiv client library and the Telegram transport are
abstracted as function parameters: the library call yields either a result
stream or an exception (`Except`), and a delivery attempt is a Boolean
success function (an exception raised by `bot.send_message` is a `false`).
-/

/-- A table row: a `(user_id, value)` pair where the value is a topic
(in `user_subscriptions`) or an article id (in `notified_articles`). -/
abbrev Row : Type := Int × String

/-- The database of database.py: the `user_subscriptions` and
`notified_articles` tables, rows listed in insertion (rowid) order. -/
structure DB where
  subs : List Row
  notified : List Row
deriving Repr, DecidableEq

/-- database.add_subscription: `INSERT OR IGNORE INTO user_subscriptions`. -/
def add_subscription (db : DB) (u : Int) (t : String) : DB :=
  if (u, t) ∈ db.subs then db else { db with subs := db.subs ++ [(u, t)] }

/-- database.remove_subscription: `DELETE FROM user_subscriptions WHERE
user_id = ? AND topic = ?`. -/
def remove_subscription (db : DB) (u : Int) (t : String) : DB :=
  { db with subs := db.subs.filter (fun p => !(decide (p.1 = u) && decide (p.2 = t))) }

/-- database.get_user_subscriptions: `SELECT topic FROM user_subscriptions
WHERE user_id = ?`. -/
def get_user_subscriptions (db : DB) (u : Int) : List String :=
  (db.subs.filter (fun p => decide (p.1 = u))).map (fun p => p.2)

/-- First-occurrence deduplication; models the key order of a Python dict
built by iterating rows, and fixes one order for Python set iteration. -/
def dedupFirst {α : Type} [DecidableEq α] : List α → List α
  | [] => []
  | x :: xs => x :: (dedupFirst xs).filter (fun y => decide (y ≠ x))

/-- database.get_all_subscriptions: the dict from user to topic list, keys
in first-appearance order. -/
def get_all_subscriptions (db : DB) : List (Int × List String) :=
  (dedupFirst (db.subs.map (fun p => p.1))).map (fun u => (u, get_user_subscriptions db u))

/-- The membership test of database.has_been_notified, on a raw
`notified_articles` table. -/
def notifiedMem (L : List Row) (u : Int) (a : String) : Bool :=
  decide ((u, a) ∈ L)

/-- database.has_been_notified: `SELECT 1 FROM notified_articles WHERE
user_id = ? AND article_id = ?` is non-empty. -/
def has_been_notified (db : DB) (u : Int) (a : String) : Bool :=
  notifiedMem db.notified u a

/-- The `INSERT OR IGNORE INTO notified_articles` of
database.add_notified_article, on a raw table. -/
def notifiedAdd (L : List Row) (u : Int) (a : String) : List Row :=
  if (u, a) ∈ L then L else L ++ [(u, a)]

/-- database.add_notified_article. -/
def add_notified_article (db : DB) (u : Int) (a : String) : DB :=
  { db with notified := notifiedAdd db.notified u a }

/-- database.clean_old_notifications on a raw table: select the user's
article ids ordered by rowid descending (newest first); if more than
`maxHistory`, delete the user's rows whose article id lies past the first
`maxHistory` of that list. -/
def cleanLedger (L : List Row) (u : Int) (maxHistory : Nat) : List Row :=
  let allA := ((L.filter (fun p => decide (p.1 = u))).reverse).map (fun p => p.2)
  if maxHistory < allA.length then
    L.filter (fun p => !(decide (p.1 = u) && decide (p.2 ∈ allA.drop maxHistory)))
  else L

/-- database.clean_old_notifications. -/
def clean_old_notifications (db : DB) (u : Int) (maxHistory : Nat) : DB :=
  { db with notified := cleanLedger db.notified u maxHistory }

/-- The integer settings of config.Config that the modelled code paths
read (each an env-var-overridable value in the source). -/
structure Config where
  MAX_RESULTS_PER_SEARCH : Nat
  DAYS_BACK_FOR_NEW_ARTICLES : Int
  SEARCH_BUFFER_MINUTES : Int
  MINIMUM_SEARCH_WINDOW_MINUTES : Int
  MAX_NOTIFICATION_HISTORY : Nat
deriving Repr, DecidableEq

/-- The default values of config.Config. -/
def defaultConfig : Config :=
  { MAX_RESULTS_PER_SEARCH := 100
    DAYS_BACK_FOR_NEW_ARTICLES := 1
    SEARCH_BUFFER_MINUTES := 5
    MINIMUM_SEARCH_WINDOW_MINUTES := 10
    MAX_NOTIFICATION_HISTORY := 1000 }

/-- An arXiv search result as consumed by the claims: its stable short id
and its publication time as a UTC timestamp in seconds.  The remaining
fields of the result dict (title, authors, summary, pdf_url, categories)
are carried verbatim by the code and play no role in any claim. -/
structure Article where
  id : String
  published : Int
deriving Repr, DecidableEq

/-- Python truthiness of an optional integer argument (`None` and `0` are
falsy), as tested by `if minutes_back:` in search_arxiv. -/
def optTruthy : Option Int → Bool
  | none => false
  | some n => decide (n ≠ 0)

/-- The date threshold computed at the top of search_arxiv: `minutes_back`
if truthy, else `days_back` if truthy, else a one-day fallback. -/
def date_threshold (now : Int) (minutes_back days_back : Option Int) : Int :=
  if optTruthy minutes_back then now - 60 * minutes_back.getD 0
  else if optTruthy days_back then now - 86400 * days_back.getD 0
  else now - 86400

/-- The result loop of search_arxiv: keep results while
`published >= date_threshold`, break at the first older one. -/
def collectResults (threshold : Int) : List Article → List Article
  | [] => []
  | r :: rs => if threshold ≤ r.published then r :: collectResults threshold rs else []

/-- arxiv_search.search_arxiv.  `searchResults` stands for iterating
`arxiv.Search(query, max_results, ...).results()`: `Except.ok` a stream of
results (truncated to `max_results` by the library, modelled by `take`),
or `Except.error` for any exception raised while searching, which the
`except` clause answers by returning the empty list. -/
def search_arxiv (searchResults : Except String (List Article)) (max_results : Nat)
    (now : Int) (minutes_back days_back : Option Int) : List Article :=
  match searchResults with
  | Except.error _ => []
  | Except.ok rs => collectResults (date_threshold now minutes_back days_back) (rs.take max_results)

/-- The search invocation of arxiv_bot.check_new_articles (lines 399-403):
the scheduled tick passes `max_results = Config.MAX_RESULTS_PER_SEARCH`
and `days_back = Config.DAYS_BACK_FOR_NEW_ARTICLES`, and no
`minutes_back`. -/
def tickFetch (cfg : Config) (raw : String → Except String (List Article)) (now : Int)
    (topic : String) : List Article :=
  search_arxiv (raw topic) cfg.MAX_RESULTS_PER_SEARCH now none (some cfg.DAYS_BACK_FOR_NEW_ARTICLES)

/-- Width in seconds of the recency window a scheduled tick asks
search_arxiv for (now minus the date threshold of the tick's call). -/
def tickRecencyWindowSeconds (cfg : Config) (now : Int) : Int :=
  now - date_threshold now none (some cfg.DAYS_BACK_FOR_NEW_ARTICLES)

/-- Modelled from the spec: the recency bound spec section 4.3 step 2
prescribes for a tick - the elapsed duration since the last successful
tick, raised to a minimum floor, plus a fixed extra buffer.  No such
computation exists in src; this definition follows the spec's words for
comparison with `tickRecencyWindowSeconds`. -/
def specRecencyWindowSeconds (cfg : Config) (elapsedSeconds : Int) : Int :=
  max elapsedSeconds (cfg.MINIMUM_SEARCH_WINDOW_MINUTES * 60) + cfg.SEARCH_BUFFER_MINUTES * 60

/-- The mutable state of one run of check_new_articles: the
`notified_articles` table and the log of successful deliveries, in order. -/
structure TickState where
  notified : List Row
  delivered : List Row
deriving Repr, DecidableEq

/-- The per-user body of the fan-out loop in check_new_articles (lines
416-432): skip if already notified; otherwise attempt delivery, and only
when the send succeeds record the pair via add_notified_article.  A failed
send changes nothing. -/
def processUser (send : Int → String → Bool) (aid : String) (st : TickState) (u : Int) :
    TickState :=
  if notifiedMem st.notified u aid then st
  else if send u aid then
    { notified := notifiedAdd st.notified u aid, delivered := st.delivered ++ [(u, aid)] }
  else st

/-- One step of the user loop (lines 413-415): only users whose topic list
contains the current topic are considered. -/
def userStep (send : Int → String → Bool) (topic aid : String) (st : TickState)
    (p : Int × List String) : TickState :=
  if topic ∈ p.2 then processUser send aid st p.1 else st

/-- The per-article fan-out of check_new_articles: iterate the
subscription snapshot, notifying each subscriber of the topic. -/
def processArticle (send : Int → String → Bool) (snapshot : List (Int × List String))
    (topic : String) (st : TickState) (a : Article) : TickState :=
  snapshot.foldl (userStep send topic a.id) st

/-- The per-topic body of check_new_articles (lines 397-435): fetch the
topic's articles and fan each out; any error raised for the topic is
caught by the per-topic `except`, leaving the state as it was. -/
def processTopic (fetch : String → Except String (List Article))
    (send : Int → String → Bool) (snapshot : List (Int × List String))
    (st : TickState) (topic : String) : TickState :=
  match fetch topic with
  | Except.error _ => st
  | Except.ok articles => articles.foldl (processArticle send snapshot topic) st

/-- The distinct-topic set of check_new_articles (line 391), in
first-occurrence order. -/
def allTopics (snapshot : List (Int × List String)) : List String :=
  dedupFirst (snapshot.map (fun p => p.2)).flatten

/-- The whole fan-out phase of a tick, from a starting
`notified_articles` table. -/
def tickFanout (fetch : String → Except String (List Article))
    (send : Int → String → Bool) (snapshot : List (Int × List String))
    (L : List Row) : TickState :=
  (allTopics snapshot).foldl (processTopic fetch send snapshot) { notified := L, delivered := [] }

/-- arxiv_bot.check_new_articles: snapshot all subscriptions (returning at
once if there are none), fan out every topic's articles to its
subscribers, then prune every snapshotted user's ledger to
`MAX_NOTIFICATION_HISTORY`.  Returns the updated database and the list of
successful deliveries of the tick. -/
def check_new_articles (cfg : Config) (fetch : String → Except String (List Article))
    (send : Int → String → Bool) (db : DB) : DB × List Row :=
  let snapshot := get_all_subscriptions db
  if snapshot.isEmpty then (db, [])
  else
    let st := tickFanout fetch send snapshot db.notified
    let cleaned := snapshot.foldl (fun L p => cleanLedger L p.1 cfg.MAX_NOTIFICATION_HISTORY) st.notified
    ({ db with notified := cleaned }, st.delivered)

/-- The rows of one user in a table (or in a delivery log), in order. -/
def rowsOf (L : List Row) (u : Int) : List Row :=
  L.filter (fun p => decide (p.1 = u))

/-- Number of ledger rows equal to the given (user, article) pair. -/
def ledgerCount (db : DB) (u : Int) (a : String) : Nat :=
  (db.notified.filter (fun p => decide (p = (u, a)))).length

/-- Number of subscription rows equal to the given (user, topic) pair. -/
def subsCount (db : DB) (u : Int) (t : String) : Nat :=
  (db.subs.filter (fun p => decide (p = (u, t)))).length

/-- Number of occurrences of a topic in a topic list. -/
def topicCount (l : List String) (t : String) : Nat :=
  (l.filter (fun s => decide (s = t))).length

/-- The action of cleanLedger on the cleaned user's own rows. -/
def cleanRows (rows : List Row) (maxHistory : Nat) : List Row :=
  let allA := (rows.reverse).map (fun p => p.2)
  if maxHistory < allA.length then
    rows.filter (fun p => !(decide (p.2 ∈ allA.drop maxHistory)))
  else rows

/-- Fixture: a ledger where user 1 holds three articles interleaved with a
row of user 2. -/
def dbC3 : DB := { subs := [], notified := [(1, "a"), (2, "x"), (1, "b"), (1, "c")] }

/-- Fixture for the pruning frame property. -/
def dbC10 : DB := { subs := [(1, "t")], notified := [(1, "a"), (2, "x"), (1, "b")] }

/-- Fixture for ledger-record idempotence. -/
def dbC6 : DB := { subs := [], notified := [(7, "z")] }

/-- Fixture for subscription idempotence. -/
def dbC7 : DB := { subs := [(3, "cs.AI")], notified := [] }

/-- Fixture database for tick-level claims: users 1 and 2 both subscribe
to topic t. -/
def dbTick : DB := { subs := [(1, "t"), (2, "t")], notified := [] }

/-- Fixture adapter: topic t yields one article. -/
def fetchTick : String → Except String (List Article) :=
  fun s => if s = "t" then Except.ok [{ id := "a1", published := 0 }] else Except.ok []

/-- Fixture delivery that fails for user 1 only. -/
def sendFail1 : Int → String → Bool := fun w _ => decide (w ≠ 1)

/-- Fixture delivery that always succeeds. -/
def sendOk : Int → String → Bool := fun _ _ => true

/-- Fixture configuration with a retention ceiling of one ledger row. -/
def cfgC2 : Config :=
  { MAX_RESULTS_PER_SEARCH := 100
    DAYS_BACK_FOR_NEW_ARTICLES := 1
    SEARCH_BUFFER_MINUTES := 5
    MINIMUM_SEARCH_WINDOW_MINUTES := 10
    MAX_NOTIFICATION_HISTORY := 1 }

/-- Fixture database for the C2 counterexample: one user, one topic. -/
def dbC2 : DB := { subs := [(1, "t")], notified := [] }

/-- Fixture adapter returning the same two articles on every tick. -/
def fetchC2 : String → Except String (List Article) :=
  fun _ => Except.ok [{ id := "a1", published := 0 }, { id := "a2", published := 0 }]

/-- Fixture database for the C2 witness: user 1 was already notified of
article a1. -/
def dbC2w : DB := { subs := [(1, "t"), (2, "t")], notified := [(1, "a1")] }

/-- Fixture adapter for per-topic isolation: topic t2 raises, others
yield one article. -/
def fetchC5 : String → Except String (List Article) :=
  fun s => if s = "t2" then Except.error "boom" else Except.ok [{ id := "a1", published := 0 }]

/-- Fixture adapter equal to fetchC5 except that t2 yields no articles. -/
def fetchC5ok : String → Except String (List Article) :=
  fun s => if s = "t2" then Except.ok [] else Except.ok [{ id := "a1", published := 0 }]

/-- Fixture database for per-topic isolation: user 1 on t1, user 2 on t2. -/
def dbC5 : DB := { subs := [(1, "t1"), (2, "t2")], notified := [] }

/-! General fold lemmas used to reason about the tick's nested loops. -/

/-- A property preserved by every step of a left fold holds of its result. -/
theorem foldl_inv_mem {α σ : Type} {P : σ → Prop} {f : σ → α → σ} (l : List α)
    (h : ∀ s x, x ∈ l → P s → P (f s x)) : ∀ s, P s → P (l.foldl f s) := by
  induction l with
  | nil => intro s hs; exact hs
  | cons x xs ih =>
    intro s hs
    simp only [List.foldl_cons]
    exact ih (fun s y hy hP => h s y (List.mem_cons_of_mem _ hy) hP) (f s x)
      (h s x (List.mem_cons_self _ _) hs)

/-- Two folds over the same list preserve a relation preserved stepwise. -/
theorem foldl_rel {α σ τ : Type} {R : σ → τ → Prop} {f : σ → α → σ} {g : τ → α → τ}
    (l : List α) (h : ∀ s s' x, x ∈ l → R s s' → R (f s x) (g s' x)) :
    ∀ s s', R s s' → R (l.foldl f s) (l.foldl g s') := by
  induction l with
  | nil => intro s s' hs; exact hs
  | cons x xs ih =>
    intro s s' hs
    simp only [List.foldl_cons]
    exact ih (fun s s' y hy => h s s' y (List.mem_cons_of_mem _ hy)) _ _
      (h s s' x (List.mem_cons_self _ _) hs)

/-- A per-element property established by its own step and preserved by
every later step holds of the fold's result, for every list element. -/
theorem foldl_establish {α σ : Type} {Q : α → σ → Prop} {f : σ → α → σ} (l : List α)
    (hstep : ∀ s x, x ∈ l → Q x (f s x))
    (hmono : ∀ s x y, Q x s → Q x (f s y)) :
    ∀ s x, x ∈ l → Q x (l.foldl f s) := by
  induction l with
  | nil => intro s x hx; cases hx
  | cons y ys ih =>
    intro s x hx
    simp only [List.foldl_cons]
    rcases List.mem_cons.mp hx with h | hx'
    · subst h
      exact foldl_inv_mem (P := Q x) ys (fun s z _ => hmono s x z) (f s x)
        (hstep s x (List.mem_cons_self _ _))
    · exact ih (fun s z hz => hstep s z (List.mem_cons_of_mem _ hz)) (f s y) x hx'

/-! Small facts about the ledger primitives. -/

theorem mem_notifiedAdd {L : List Row} {u : Int} {a : String} {x : Row} (hx : x ∈ L) :
    x ∈ notifiedAdd L u a := by
  unfold notifiedAdd
  split
  · exact hx
  · exact List.mem_append_left _ hx

theorem self_mem_notifiedAdd {L : List Row} {u : Int} {a : String} :
    (u, a) ∈ notifiedAdd L u a := by
  unfold notifiedAdd
  split
  case isTrue h => exact h
  case isFalse h => exact List.mem_append_right _ (List.mem_singleton.mpr rfl)

theorem not_mem_notifiedAdd {L : List Row} {u : Int} {a : String} {x : Row}
    (hne : x ≠ (u, a)) (hx : x ∉ L) : x ∉ notifiedAdd L u a := by
  unfold notifiedAdd
  split
  · exact hx
  · intro hmem
    rcases List.mem_append.mp hmem with h | h
    · exact hx h
    · exact hne (List.mem_singleton.mp h)

theorem notifiedMem_false_iff {L : List Row} {u : Int} {a : String} :
    notifiedMem L u a = false ↔ (u, a) ∉ L := by
  unfold notifiedMem
  simp

theorem notifiedMem_true_iff {L : List Row} {u : Int} {a : String} :
    notifiedMem L u a = true ↔ (u, a) ∈ L := by
  unfold notifiedMem
  simp

/-! Monotonicity of the fan-out: the notified table only ever grows. -/

theorem processUser_mono {send : Int → String → Bool} {aid : String} {st : TickState}
    {u : Int} {x : Row} (hx : x ∈ st.notified) :
    x ∈ (processUser send aid st u).notified := by
  unfold processUser
  split
  · exact hx
  · split
    · exact mem_notifiedAdd hx
    · exact hx

theorem userStep_mono {send : Int → String → Bool} {topic aid : String} {st : TickState}
    {p : Int × List String} {x : Row} (hx : x ∈ st.notified) :
    x ∈ (userStep send topic aid st p).notified := by
  unfold userStep
  split
  · exact processUser_mono hx
  · exact hx

theorem processArticle_mono {send : Int → String → Bool}
    {snapshot : List (Int × List String)} {topic : String} {st : TickState} {a : Article}
    {x : Row} (hx : x ∈ st.notified) :
    x ∈ (processArticle send snapshot topic st a).notified := by
  unfold processArticle
  exact foldl_inv_mem (P := fun st => x ∈ st.notified) snapshot
    (fun s q _ hq => userStep_mono hq) st hx

theorem processTopic_mono {fetch : String → Except String (List Article)}
    {send : Int → String → Bool} {snapshot : List (Int × List String)} {st : TickState}
    {t : String} {x : Row} (hx : x ∈ st.notified) :
    x ∈ (processTopic fetch send snapshot st t).notified := by
  unfold processTopic
  cases fetch t with
  | error e => exact hx
  | ok articles =>
    exact foldl_inv_mem (P := fun st => x ∈ st.notified) articles
      (fun s a _ ha => processArticle_mono ha) st hx

theorem tickFanout_mono {fetch : String → Except String (List Article)}
    {send : Int → String → Bool} {snapshot : List (Int × List String)} {L : List Row}
    {x : Row} (hx : x ∈ L) :
    x ∈ (tickFanout fetch send snapshot L).notified := by
  unfold tickFanout
  exact foldl_inv_mem (P := fun st : TickState => x ∈ st.notified) (allTopics snapshot)
    (fun s t _ ht => processTopic_mono ht) ({ notified := L, delivered := [] } : TickState) hx

/-! Facts about rowsOf and cleanLedger. -/

theorem pair_mem_rowsOf {L : List Row} {u : Int} {a : String} :
    (u, a) ∈ rowsOf L u ↔ (u, a) ∈ L := by
  unfold rowsOf
  simp [List.mem_filter]

theorem mem_rowsOf_iff {L : List Row} {v : Int} {x : Row} :
    x ∈ rowsOf L v ↔ x ∈ L ∧ x.1 = v := by
  unfold rowsOf
  simp [List.mem_filter]

theorem rowsOf_append (L M : List Row) (u : Int) :
    rowsOf (L ++ M) u = rowsOf L u ++ rowsOf M u := by
  unfold rowsOf
  exact List.filter_append L M

theorem rowsOf_notifiedAdd_other {L : List Row} {u v : Int} {a : String} (hne : v ≠ u) :
    rowsOf (notifiedAdd L u a) v = rowsOf L v := by
  unfold notifiedAdd
  split
  · rfl
  · rw [rowsOf_append]
    have : rowsOf [(u, a)] v = [] := by
      unfold rowsOf
      simp [List.filter, Ne.symm hne]
    rw [this, List.append_nil]

theorem cleanLedger_eq (L : List Row) (u : Int) (m : Nat) :
    cleanLedger L u m =
      if m < (rowsOf L u).length then
        L.filter (fun p => !(decide (p.1 = u) &&
          decide (p.2 ∈ (((rowsOf L u).reverse).map (fun p => p.2)).drop m)))
      else L := by
  unfold cleanLedger rowsOf
  simp only [List.length_map, List.length_reverse]

theorem mem_of_mem_cleanLedger {L : List Row} {u : Int} {m : Nat} {x : Row}
    (hx : x ∈ cleanLedger L u m) : x ∈ L := by
  rw [cleanLedger_eq] at hx
  split at hx
  · exact (List.mem_filter.mp hx).1
  · exact hx

theorem rowsOf_cleanLedger_other {L : List Row} {u v : Int} (hne : v ≠ u) (m : Nat) :
    rowsOf (cleanLedger L u m) v = rowsOf L v := by
  rw [cleanLedger_eq]
  split
  · unfold rowsOf
    rw [List.filter_filter]
    apply List.filter_congr
    intro x _
    by_cases hxv : x.1 = v
    · have hxu : ¬(x.1 = u) := by rw [hxv]; exact hne
      simp [hxv, hxu, hne]
    · simp [hxv]
  · rfl

theorem rowsOf_cleanLedger_self (L : List Row) (u : Int) (m : Nat) :
    rowsOf (cleanLedger L u m) u = cleanRows (rowsOf L u) m := by
  rw [cleanLedger_eq]
  unfold cleanRows
  simp only [List.length_map, List.length_reverse]
  by_cases h : m < (rowsOf L u).length
  · rw [if_pos h, if_pos h]
    unfold rowsOf
    rw [List.filter_filter, List.filter_filter]
    apply List.filter_congr
    intro x _
    by_cases hxu : x.1 = u <;> simp [hxu]
  · rw [if_neg h, if_neg h]

/-! The pruning policy computes "keep the newest maxHistory rows". -/

theorem filter_not_mem_take (rows : List Row) (k : Nat)
    (h : (rows.map (fun p => p.2)).Nodup) :
    rows.filter (fun p => !(decide (p.2 ∈ (rows.map (fun p => p.2)).take k))) = rows.drop k := by
  induction rows generalizing k with
  | nil => simp
  | cons r rs ih =>
    cases k with
    | zero => simp
    | succ k =>
      simp only [List.map_cons, List.take_succ_cons, List.drop_succ_cons]
      rw [List.filter_cons_of_neg (by simp)]
      have hr : r.2 ∉ rs.map (fun p => p.2) := (List.nodup_cons.mp h).1
      have hcongr : ∀ x ∈ rs,
          (!(decide (x.2 ∈ r.2 :: (rs.map (fun p => p.2)).take k))) =
          (!(decide (x.2 ∈ (rs.map (fun p => p.2)).take k))) := by
        intro x hx
        have hxne : x.2 ≠ r.2 := by
          intro he
          exact hr (he ▸ List.mem_map.mpr ⟨x, hx, rfl⟩)
        simp [List.mem_cons, hxne]
      rw [List.filter_congr hcongr]
      exact ih k (List.nodup_cons.mp h).2

theorem cleanRows_eq_drop (rows : List Row) (m : Nat)
    (h : (rows.map (fun p => p.2)).Nodup) :
    cleanRows rows m = rows.drop (rows.length - m) := by
  unfold cleanRows
  simp only [List.length_map, List.length_reverse]
  by_cases hlt : m < rows.length
  · rw [if_pos hlt]
    have hdel : ((rows.reverse).map (fun p => p.2)).drop m
        = ((rows.map (fun p => p.2)).take (rows.length - m)).reverse := by
      rw [List.map_reverse, List.drop_reverse]
      simp [List.length_map]
    rw [hdel]
    have hcongr : ∀ x ∈ rows,
        (!(decide (x.2 ∈ ((rows.map (fun p => p.2)).take (rows.length - m)).reverse))) =
        (!(decide (x.2 ∈ (rows.map (fun p => p.2)).take (rows.length - m)))) := by
      intro x _
      simp [List.mem_reverse]
    rw [List.filter_congr hcongr]
    exact filter_not_mem_take rows (rows.length - m) h
  · rw [if_neg hlt]
    have h0 : rows.length - m = 0 := by omega
    rw [h0, List.drop_zero]

/-- C3: for every user and every max_history N, pruning
(clean_old_notifications) a ledger whose entries for that user have
pairwise-distinct article ids leaves exactly the N most-recently-inserted
rows of that user, in insertion order (the oldest-by-insertion rest are
deleted); when the user has at most N rows, the database is unchanged. -/
theorem c3_prune_keeps_recent (db : DB) (u : Int) (N : Nat)
    (hnd : ((rowsOf db.notified u).map (fun p => p.2)).Nodup) :
    rowsOf (clean_old_notifications db u N).notified u
        = (rowsOf db.notified u).drop ((rowsOf db.notified u).length - N)
      ∧ ((rowsOf db.notified u).length ≤ N → clean_old_notifications db u N = db) := by
  constructor
  · show rowsOf (cleanLedger db.notified u N) u = _
    rw [rowsOf_cleanLedger_self, cleanRows_eq_drop _ _ hnd]
  · intro hle
    unfold clean_old_notifications
    rw [cleanLedger_eq, if_neg (by omega)]

theorem c3_prune_keeps_recent_witness :
    rowsOf (clean_old_notifications dbC3 1 2).notified 1
        = (rowsOf dbC3.notified 1).drop ((rowsOf dbC3.notified 1).length - 2)
      ∧ ((rowsOf dbC3.notified 1).length ≤ 2 → clean_old_notifications dbC3 1 2 = dbC3) :=
  c3_prune_keeps_recent dbC3 1 2 (by decide)

/-- C10: clean_old_notifications touches only the given user's ledger
rows: the subscription table is unchanged, and every other user's ledger
rows are unchanged. -/
theorem c10_prune_frame (db : DB) (u : Int) (N : Nat) (v : Int) (hv : v ≠ u) :
    (clean_old_notifications db u N).subs = db.subs
      ∧ rowsOf (clean_old_notifications db u N).notified v = rowsOf db.notified v := by
  constructor
  · rfl
  · show rowsOf (cleanLedger db.notified u N) v = _
    exact rowsOf_cleanLedger_other hv N

theorem c10_prune_frame_witness :
    (clean_old_notifications dbC10 1 1).subs = dbC10.subs
      ∧ rowsOf (clean_old_notifications dbC10 1 1).notified 2 = rowsOf dbC10.notified 2 :=
  c10_prune_frame dbC10 1 1 2 (by decide)

/-! Idempotence of the two INSERT OR IGNORE write paths. -/

theorem notifiedAdd_of_mem {L : List Row} {u : Int} {a : String} (h : (u, a) ∈ L) :
    notifiedAdd L u a = L := by
  unfold notifiedAdd
  rw [if_pos h]

theorem pair_filter_length_pos {L : List Row} {x : Row} (h : x ∈ L) :
    0 < (L.filter (fun p => decide (p = x))).length :=
  List.length_pos.mpr (List.ne_nil_of_mem (List.mem_filter.mpr ⟨h, by simp⟩))

/-- C6: after add_notified_article the pair reads back as notified via
has_been_notified, and the write is idempotent: a second identical call
changes nothing and, given the primary-key invariant of the table (at most
one row per pair), exactly one ledger row for the pair exists. -/
theorem c6_record_idempotent (db : DB) (u : Int) (a : String)
    (hpk : ledgerCount db u a ≤ 1) :
    has_been_notified (add_notified_article db u a) u a = true
      ∧ add_notified_article (add_notified_article db u a) u a = add_notified_article db u a
      ∧ ledgerCount (add_notified_article db u a) u a = 1 := by
  refine ⟨?_, ?_, ?_⟩
  · show notifiedMem (notifiedAdd db.notified u a) u a = true
    rw [notifiedMem_true_iff]
    exact self_mem_notifiedAdd
  · unfold add_notified_article
    congr 1
    exact notifiedAdd_of_mem self_mem_notifiedAdd
  · show (List.filter _ (notifiedAdd db.notified u a)).length = 1
    unfold notifiedAdd
    split
    case isTrue h =>
      have hpos : 0 < (db.notified.filter (fun p => decide (p = (u, a)))).length :=
        pair_filter_length_pos h
      have hle : (db.notified.filter (fun p => decide (p = (u, a)))).length ≤ 1 := hpk
      omega
    case isFalse h =>
      rw [List.filter_append]
      have h0 : db.notified.filter (fun p => decide (p = (u, a))) = [] := by
        rw [List.filter_eq_nil_iff]
        intro p hp
        simp only [decide_eq_true_eq]
        intro he
        exact h (he ▸ hp)
      rw [h0]
      simp

theorem c6_record_idempotent_witness :
    has_been_notified (add_notified_article dbC6 5 "q") 5 "q" = true
      ∧ add_notified_article (add_notified_article dbC6 5 "q") 5 "q"
          = add_notified_article dbC6 5 "q"
      ∧ ledgerCount (add_notified_article dbC6 5 "q") 5 "q" = 1 :=
  c6_record_idempotent dbC6 5 "q" (by decide)

theorem topicCount_get_user_subscriptions (db : DB) (u : Int) (t : String) :
    topicCount (get_user_subscriptions db u) t = subsCount db u t := by
  unfold topicCount get_user_subscriptions subsCount
  rw [List.filter_map, List.length_map, List.filter_filter]
  congr 1
  apply List.filter_congr
  intro x _
  by_cases h1 : x.1 = u <;> by_cases h2 : x.2 = t <;>
    simp [Prod.ext_iff, h1, h2, Function.comp]

/-- C7: subscribing twice to the same (user, topic) is a no-op duplicate
and, given the primary-key invariant of the table, get_user_subscriptions
then lists the topic exactly once. -/
theorem c7_subscribe_idempotent (db : DB) (u : Int) (t : String)
    (hpk : subsCount db u t ≤ 1) :
    topicCount (get_user_subscriptions
        (add_subscription (add_subscription db u t) u t) u) t = 1
      ∧ add_subscription (add_subscription db u t) u t = add_subscription db u t := by
  have hdouble : add_subscription (add_subscription db u t) u t = add_subscription db u t := by
    by_cases h : (u, t) ∈ db.subs
    · have h1 : add_subscription db u t = db := by
        unfold add_subscription
        rw [if_pos h]
      rw [h1]
      exact h1
    · have h1 : add_subscription db u t = { db with subs := db.subs ++ [(u, t)] } := by
        unfold add_subscription
        rw [if_neg h]
      rw [h1]
      unfold add_subscription
      rw [if_pos (List.mem_append_right _ (List.mem_singleton.mpr rfl))]
  refine ⟨?_, hdouble⟩
  rw [hdouble, topicCount_get_user_subscriptions]
  show (List.filter _ (add_subscription db u t).subs).length = 1
  unfold add_subscription
  split
  case isTrue h =>
    have hpos : 0 < (db.subs.filter (fun p => decide (p = (u, t)))).length :=
      pair_filter_length_pos h
    have hle : (db.subs.filter (fun p => decide (p = (u, t)))).length ≤ 1 := hpk
    omega
  case isFalse h =>
    show (List.filter _ (db.subs ++ [(u, t)])).length = 1
    rw [List.filter_append]
    have h0 : db.subs.filter (fun p => decide (p = (u, t))) = [] := by
      rw [List.filter_eq_nil_iff]
      intro p hp
      simp only [decide_eq_true_eq]
      intro he
      exact h (he ▸ hp)
    rw [h0]
    simp

theorem c7_subscribe_idempotent_witness :
    topicCount (get_user_subscriptions
        (add_subscription (add_subscription dbC7 3 "cs.AI") 3 "cs.AI") 3) "cs.AI" = 1
      ∧ add_subscription (add_subscription dbC7 3 "cs.AI") 3 "cs.AI"
          = add_subscription dbC7 3 "cs.AI" :=
  c7_subscribe_idempotent dbC7 3 "cs.AI" (by decide)

/-- C8: search_arxiv is total over its error branch: whatever exception
the underlying search raises, for any arguments, the function returns the
empty list instead of propagating. -/
theorem c8_search_error_returns_empty (e : String) (max_results : Nat) (now : Int)
    (minutes_back days_back : Option Int) :
    search_arxiv (Except.error e) max_results now minutes_back days_back = [] := rfl

theorem collectResults_eq_takeWhile (threshold : Int) (l : List Article) :
    collectResults threshold l
      = l.takeWhile (fun a => decide (threshold ≤ a.published)) := by
  induction l with
  | nil => rfl
  | cons r rs ih =>
    unfold collectResults
    rw [List.takeWhile_cons]
    by_cases h : threshold ≤ r.published <;> simp [h, ih]

/-- C9: every article search_arxiv returns was published at or after the
date threshold derived from minutes_back, else days_back, else the one-day
default; at most max_results are returned; and the returned list is the
longest prefix of the (truncated) stream meeting the threshold - iteration
stops at the first older result. -/
theorem c9_search_threshold (stream : List Article) (max_results : Nat) (now : Int)
    (minutes_back days_back : Option Int) :
    (search_arxiv (Except.ok stream) max_results now minutes_back days_back).all
        (fun a => decide (date_threshold now minutes_back days_back ≤ a.published)) = true
      ∧ (search_arxiv (Except.ok stream) max_results now minutes_back days_back).length
          ≤ max_results
      ∧ search_arxiv (Except.ok stream) max_results now minutes_back days_back
          = (stream.take max_results).takeWhile
              (fun a => decide (date_threshold now minutes_back days_back ≤ a.published)) := by
  refine ⟨?_, ?_, ?_⟩
  · show (collectResults _ _).all _ = true
    rw [collectResults_eq_takeWhile, List.all_eq_true]
    intro a ha
    have hp := List.mem_takeWhile_imp ha
    simpa using hp
  · show (collectResults _ _).length ≤ _
    rw [collectResults_eq_takeWhile]
    calc (List.takeWhile _ (stream.take max_results)).length
        ≤ (stream.take max_results).length := (List.takeWhile_sublist _).length_le
      _ ≤ max_results := List.length_take_le _ _
  · exact collectResults_eq_takeWhile _ _

/-- C4 counterexample: the scheduled tick's recency window is the fixed
DAYS_BACK_FOR_NEW_ARTICLES bound (86400 seconds at the default
configuration), not the spec's elapsed-time window with floor and buffer:
for a tick 3600 seconds after the previous one, the spec's window is
3900 seconds, while the code searches 86400 seconds back. -/
theorem c4_counterexample :
    tickRecencyWindowSeconds defaultConfig 1000000
      ≠ specRecencyWindowSeconds defaultConfig 3600 := by decide

/-- C4 as amended: the tick's per-topic search is invoked with
days_back = DAYS_BACK_FOR_NEW_ARTICLES only (tickFetch), making the
recency window a constant 86400 seconds at the default configuration,
independent of the time since the last tick; the
MINIMUM_SEARCH_WINDOW_MINUTES floor is not applied by the code, though the
fixed default window is never narrower than it. -/
theorem c4_fixed_window (now : Int) (raw : String → Except String (List Article))
    (topic : String) :
    tickRecencyWindowSeconds defaultConfig now = 86400
      ∧ defaultConfig.MINIMUM_SEARCH_WINDOW_MINUTES * 60
          ≤ tickRecencyWindowSeconds defaultConfig now
      ∧ tickFetch defaultConfig raw now topic
          = search_arxiv (raw topic) defaultConfig.MAX_RESULTS_PER_SEARCH now none
              (some defaultConfig.DAYS_BACK_FOR_NEW_ARTICLES) := by
  have h : tickRecencyWindowSeconds defaultConfig now = 86400 := by
    unfold tickRecencyWindowSeconds date_threshold optTruthy defaultConfig
    norm_num
  refine ⟨h, ?_, rfl⟩
  rw [h]
  norm_num [defaultConfig]

/-! Characterizations of the tick's two branches. -/

theorem check_new_articles_empty (cfg : Config) (fetch : String → Except String (List Article))
    (send : Int → String → Bool) (db : DB)
    (hemp : (get_all_subscriptions db).isEmpty = true) :
    check_new_articles cfg fetch send db = (db, []) := by
  simp only [check_new_articles]
  rw [if_pos hemp]

theorem check_new_articles_eq (cfg : Config) (fetch : String → Except String (List Article))
    (send : Int → String → Bool) (db : DB)
    (hemp : ¬(get_all_subscriptions db).isEmpty = true) :
    check_new_articles cfg fetch send db
      = ({ db with notified := ((get_all_subscriptions db).foldl
            (fun L p => cleanLedger L p.1 cfg.MAX_NOTIFICATION_HISTORY)
            (tickFanout fetch send (get_all_subscriptions db) db.notified).notified) },
         (tickFanout fetch send (get_all_subscriptions db) db.notified).delivered) := by
  simp only [check_new_articles]
  rw [if_neg hemp]

theorem check_new_articles_subs (cfg : Config) (fetch : String → Except String (List Article))
    (send : Int → String → Bool) (db : DB) :
    (check_new_articles cfg fetch send db).1.subs = db.subs := by
  by_cases hemp : (get_all_subscriptions db).isEmpty = true
  · rw [check_new_articles_empty cfg fetch send db hemp]
  · rw [check_new_articles_eq cfg fetch send db hemp]

theorem get_all_subscriptions_eq_of_subs {db db' : DB} (h : db'.subs = db.subs) :
    get_all_subscriptions db' = get_all_subscriptions db := by
  unfold get_all_subscriptions get_user_subscriptions
  rw [h]

/-! C5: per-topic isolation. -/

theorem processTopic_error_congr {fetch fetch' : String → Except String (List Article)}
    {send : Int → String → Bool} {snapshot : List (Int × List String)} {t0 e : String}
    (herr : fetch t0 = Except.error e) (hok : fetch' t0 = Except.ok [])
    (hagree : ∀ t, t ≠ t0 → fetch' t = fetch t) :
    ∀ st t, processTopic fetch send snapshot st t = processTopic fetch' send snapshot st t := by
  intro st t
  by_cases h : t = t0
  · subst h
    unfold processTopic
    rw [herr, hok]
    rfl
  · unfold processTopic
    rw [hagree t h]

/-- C5: if fetching or processing one topic raises, the tick catches the
error and continues: the whole tick behaves exactly as if that topic had
returned no articles, so every other topic is still processed, its
notifications delivered, and no per-topic error escapes the tick. -/
theorem c5_topic_isolation (cfg : Config)
    (fetch fetch' : String → Except String (List Article)) (send : Int → String → Bool)
    (db : DB) (t0 e : String)
    (herr : fetch t0 = Except.error e) (hok : fetch' t0 = Except.ok [])
    (hagree : ∀ t, t ≠ t0 → fetch' t = fetch t) :
    check_new_articles cfg fetch send db = check_new_articles cfg fetch' send db := by
  have hfan : tickFanout fetch send (get_all_subscriptions db) db.notified
      = tickFanout fetch' send (get_all_subscriptions db) db.notified := by
    unfold tickFanout
    apply List.foldl_ext
    intro st t _
    exact processTopic_error_congr herr hok hagree st t
  by_cases hemp : (get_all_subscriptions db).isEmpty = true
  · rw [check_new_articles_empty cfg fetch send db hemp,
      check_new_articles_empty cfg fetch' send db hemp]
  · rw [check_new_articles_eq cfg fetch send db hemp,
      check_new_articles_eq cfg fetch' send db hemp, hfan]

theorem c5_topic_isolation_witness :
    check_new_articles defaultConfig fetchC5 sendOk dbC5
      = check_new_articles defaultConfig fetchC5ok sendOk dbC5 :=
  c5_topic_isolation defaultConfig fetchC5 fetchC5ok sendOk dbC5 "t2" "boom"
    rfl rfl (by
      intro t ht
      simp [fetchC5, fetchC5ok, ht])

/-! C2: deduplication across back-to-back ticks. -/

theorem processUser_records {send : Int → String → Bool} {aid : String} {st : TickState}
    {w : Int} (hs : send w aid = true) :
    (w, aid) ∈ (processUser send aid st w).notified := by
  unfold processUser
  by_cases h : notifiedMem st.notified w aid = true
  · rw [if_pos h]
    exact notifiedMem_true_iff.mp h
  · rw [if_neg h, if_pos hs]
    exact self_mem_notifiedAdd

theorem userStep_records {send : Int → String → Bool} {topic aid : String} {st : TickState}
    {p : Int × List String} (htp : topic ∈ p.2) (hs : send p.1 aid = true) :
    (p.1, aid) ∈ (userStep send topic aid st p).notified := by
  unfold userStep
  rw [if_pos htp]
  exact processUser_records hs

theorem processArticle_records {send : Int → String → Bool}
    {snapshot : List (Int × List String)} {topic : String} {st : TickState} {a : Article}
    {p : Int × List String} (hp : p ∈ snapshot) (htp : topic ∈ p.2)
    (hs : send p.1 a.id = true) :
    (p.1, a.id) ∈ (processArticle send snapshot topic st a).notified := by
  unfold processArticle
  exact foldl_establish
    (Q := fun (q : Int × List String) (st : TickState) =>
      topic ∈ q.2 → send q.1 a.id = true → (q.1, a.id) ∈ st.notified)
    snapshot
    (fun s q _ h1 h2 => userStep_records h1 h2)
    (fun s q r hQ h1 h2 => userStep_mono (hQ h1 h2))
    st p hp htp hs

theorem processTopic_records {fetch : String → Except String (List Article)}
    {send : Int → String → Bool} {snapshot : List (Int × List String)} {st : TickState}
    {t : String} {arts : List Article} {a : Article} {p : Int × List String}
    (hf : fetch t = Except.ok arts) (ha : a ∈ arts) (hp : p ∈ snapshot)
    (htp : t ∈ p.2) (hs : send p.1 a.id = true) :
    (p.1, a.id) ∈ (processTopic fetch send snapshot st t).notified := by
  unfold processTopic
  rw [hf]
  exact foldl_establish
    (Q := fun (b : Article) (st : TickState) =>
      send p.1 b.id = true → (p.1, b.id) ∈ st.notified)
    arts
    (fun s b _ h2 => processArticle_records hp htp h2)
    (fun s b c hQ h2 => processArticle_mono (hQ h2))
    st a ha hs

theorem tickFanout_records {fetch : String → Except String (List Article)}
    {send : Int → String → Bool} {snapshot : List (Int × List String)} {L : List Row}
    {t : String} {arts : List Article} {a : Article} {p : Int × List String}
    (ht : t ∈ allTopics snapshot) (hf : fetch t = Except.ok arts) (ha : a ∈ arts)
    (hp : p ∈ snapshot) (htp : t ∈ p.2) (hs : send p.1 a.id = true) :
    (p.1, a.id) ∈ (tickFanout fetch send snapshot L).notified := by
  unfold tickFanout
  exact foldl_establish
    (Q := fun (s : String) (st : TickState) => s = t → (p.1, a.id) ∈ st.notified)
    (allTopics snapshot)
    (fun st' s _ he => by
      subst he
      exact processTopic_records hf ha hp htp hs)
    (fun st' s r hQ he => processTopic_mono (hQ he))
    ({ notified := L, delivered := [] } : TickState) t ht rfl

theorem tickFanout_silent {fetch : String → Except String (List Article)}
    {send : Int → String → Bool} {snapshot : List (Int × List String)} {L : List Row}
    (h : ∀ t ∈ allTopics snapshot, ∀ arts, fetch t = Except.ok arts →
        ∀ a ∈ arts, ∀ p ∈ snapshot, t ∈ p.2 → send p.1 a.id = true → (p.1, a.id) ∈ L) :
    tickFanout fetch send snapshot L = { notified := L, delivered := [] } := by
  unfold tickFanout
  apply foldl_inv_mem
    (P := fun st : TickState => st = { notified := L, delivered := [] })
    (allTopics snapshot) ?_ _ rfl
  intro st t ht hst
  subst hst
  unfold processTopic
  cases hft : fetch t with
  | error e => rfl
  | ok arts =>
    apply foldl_inv_mem
      (P := fun st : TickState => st = { notified := L, delivered := [] })
      arts ?_ _ rfl
    intro st' a ha hst'
    subst hst'
    unfold processArticle
    apply foldl_inv_mem
      (P := fun st : TickState => st = { notified := L, delivered := [] })
      snapshot ?_ _ rfl
    intro st'' p hp hst''
    subst hst''
    unfold userStep
    by_cases htp : t ∈ p.2
    · rw [if_pos htp]
      unfold processUser
      by_cases hmem : notifiedMem L p.1 a.id = true
      · rw [if_pos hmem]
      · have hsf : send p.1 a.id = false := by
          cases hsb : send p.1 a.id
          · rfl
          · exact absurd (notifiedMem_true_iff.mpr (h t ht arts hft a ha p hp htp hsb)) hmem
        rw [if_neg hmem]
        simp [hsf]
    · rw [if_neg htp]

theorem processUser_keep_pair {send : Int → String → Bool} {aid : String} {w : Int}
    {st : TickState} {u : Int} {a : String}
    (hP : (u, a) ∈ st.notified ∧ (u, a) ∉ st.delivered) :
    (u, a) ∈ (processUser send aid st w).notified
      ∧ (u, a) ∉ (processUser send aid st w).delivered := by
  unfold processUser
  split
  · exact hP
  case isFalse hm =>
    split
    · refine ⟨mem_notifiedAdd hP.1, ?_⟩
      intro hmem
      rcases List.mem_append.mp hmem with hh | hh
      · exact hP.2 hh
      · have he := List.mem_singleton.mp hh
        rw [he] at hP
        exact hm (notifiedMem_true_iff.mpr hP.1)
    · exact hP

theorem tickFanout_keep_pair {fetch : String → Except String (List Article)}
    {send : Int → String → Bool} {snapshot : List (Int × List String)} {L : List Row}
    {u : Int} {a : String} (hL : (u, a) ∈ L) :
    (u, a) ∈ (tickFanout fetch send snapshot L).notified
      ∧ (u, a) ∉ (tickFanout fetch send snapshot L).delivered := by
  unfold tickFanout
  apply foldl_inv_mem
    (P := fun st : TickState => (u, a) ∈ st.notified ∧ (u, a) ∉ st.delivered)
    (allTopics snapshot) ?_ ({ notified := L, delivered := [] } : TickState)
    ⟨hL, by simp⟩
  intro st t _ hP
  unfold processTopic
  cases hft : fetch t with
  | error e => exact hP
  | ok arts =>
    apply foldl_inv_mem
      (P := fun st : TickState => (u, a) ∈ st.notified ∧ (u, a) ∉ st.delivered)
      arts ?_ st hP
    intro st' b _ hP'
    unfold processArticle
    apply foldl_inv_mem
      (P := fun st : TickState => (u, a) ∈ st.notified ∧ (u, a) ∉ st.delivered)
      snapshot ?_ st' hP'
    intro st'' p _ hP''
    unfold userStep
    split
    · exact processUser_keep_pair hP''
    · exact hP''

theorem cleanFold_id {snapshot : List (Int × List String)} {m : Nat} {L : List Row}
    (hcap : ∀ p ∈ snapshot, (rowsOf L p.1).length ≤ m) :
    snapshot.foldl (fun acc p => cleanLedger acc p.1 m) L = L := by
  apply foldl_inv_mem (P := fun acc : List Row => acc = L) snapshot ?_ L rfl
  intro acc p hp hacc
  subst hacc
  rw [cleanLedger_eq, if_neg]
  have := hcap p hp
  omega

/-- C2 counterexample: with retention ceiling MAX_NOTIFICATION_HISTORY = 1
(an environment-configurable setting), one subscriber, and an adapter
returning the same two articles on both ticks, the end-of-tick pruning of
the first tick evicts the older recorded article, so the second
back-to-back tick redelivers it: its delivery list is not empty. -/
theorem c2_counterexample :
    (check_new_articles cfgC2 fetchC2 sendOk
        (check_new_articles cfgC2 fetchC2 sendOk dbC2).1).2 = [(1, "a1")]
      ∧ (check_new_articles cfgC2 fetchC2 sendOk
        (check_new_articles cfgC2 fetchC2 sendOk dbC2).1).2 ≠ [] := by decide

/-- C2 as amended: any user already recorded as notified for an article
is skipped by the tick and receives no message for it; and two
back-to-back ticks with the same subscriptions, adapter and delivery
behaviour deliver nothing on the second tick, provided end-of-tick
pruning evicts nothing - that is, every snapshotted user's ledger row
count after the first tick's fan-out stays within
MAX_NOTIFICATION_HISTORY. -/
theorem c2_second_tick_silent (cfg : Config)
    (fetch : String → Except String (List Article)) (send : Int → String → Bool)
    (db : DB) :
    (∀ u : Int, ∀ a : String, has_been_notified db u a = true →
        (u, a) ∉ (check_new_articles cfg fetch send db).2)
      ∧ ((∀ p ∈ get_all_subscriptions db,
            (rowsOf (tickFanout fetch send (get_all_subscriptions db) db.notified).notified
              p.1).length ≤ cfg.MAX_NOTIFICATION_HISTORY) →
          (check_new_articles cfg fetch send (check_new_articles cfg fetch send db).1).2
            = []) := by
  by_cases hemp : (get_all_subscriptions db).isEmpty = true
  · constructor
    · intro u a _
      rw [check_new_articles_empty cfg fetch send db hemp]
      simp
    · intro _
      rw [check_new_articles_empty cfg fetch send db hemp]
      show (check_new_articles cfg fetch send db).2 = []
      rw [check_new_articles_empty cfg fetch send db hemp]
  · constructor
    · intro u a hmem
      rw [check_new_articles_eq cfg fetch send db hemp]
      exact (tickFanout_keep_pair (notifiedMem_true_iff.mp hmem)).2
    · intro hcap
      have h1 := check_new_articles_eq cfg fetch send db hemp
      have hL1 : (check_new_articles cfg fetch send db).1.notified
          = (tickFanout fetch send (get_all_subscriptions db) db.notified).notified := by
        rw [h1]
        exact cleanFold_id hcap
      have hsubs : (check_new_articles cfg fetch send db).1.subs = db.subs :=
        check_new_articles_subs cfg fetch send db
      have hsnap : get_all_subscriptions (check_new_articles cfg fetch send db).1
          = get_all_subscriptions db := get_all_subscriptions_eq_of_subs hsubs
      have hemp2 : ¬(get_all_subscriptions
          (check_new_articles cfg fetch send db).1).isEmpty = true := by
        rw [hsnap]
        exact hemp
      have hsil : tickFanout fetch send (get_all_subscriptions db)
          (tickFanout fetch send (get_all_subscriptions db) db.notified).notified
          = { notified :=
                (tickFanout fetch send (get_all_subscriptions db) db.notified).notified,
              delivered := [] } :=
        tickFanout_silent (fun t ht arts hf b hb p hp htp hs =>
          tickFanout_records ht hf hb hp htp hs)
      rw [check_new_articles_eq cfg fetch send _ hemp2]
      show (tickFanout fetch send
          (get_all_subscriptions (check_new_articles cfg fetch send db).1)
          (check_new_articles cfg fetch send db).1.notified).delivered = []
      rw [hsnap, hL1, hsil]

theorem c2_second_tick_silent_witness :
    (1, "a1") ∉ (check_new_articles defaultConfig fetchTick sendOk dbC2w).2
      ∧ (check_new_articles defaultConfig fetchC2 sendOk
          (check_new_articles defaultConfig fetchC2 sendOk dbC2).1).2 = [] :=
  ⟨(c2_second_tick_silent defaultConfig fetchTick sendOk dbC2w).1 1 "a1" (by decide),
   (c2_second_tick_silent defaultConfig fetchC2 sendOk dbC2).2 (by decide)⟩

/-! C1: a failed delivery records nothing and affects no other user. -/

theorem processUser_skip_failed {send : Int → String → Bool} {u : Int} {a : String}
    (hsend : send u a = false) {aid : String} {w : Int} {st : TickState}
    (hP : (u, a) ∉ st.notified ∧ (u, a) ∉ st.delivered) :
    (u, a) ∉ (processUser send aid st w).notified
      ∧ (u, a) ∉ (processUser send aid st w).delivered := by
  unfold processUser
  split
  · exact hP
  · split
    case isTrue hsw =>
      have hne : (u, a) ≠ (w, aid) := by
        intro he
        rw [Prod.mk.injEq] at he
        rw [← he.1, ← he.2] at hsw
        rw [hsend] at hsw
        cases hsw
      refine ⟨not_mem_notifiedAdd hne hP.1, ?_⟩
      intro hmem
      rcases List.mem_append.mp hmem with hh | hh
      · exact hP.2 hh
      · exact hne (List.mem_singleton.mp hh)
    · exact hP

theorem tickFanout_skip_failed {fetch : String → Except String (List Article)}
    {send : Int → String → Bool} {snapshot : List (Int × List String)} {L : List Row}
    {u : Int} {a : String} (hsend : send u a = false) (hL : (u, a) ∉ L) :
    (u, a) ∉ (tickFanout fetch send snapshot L).notified
      ∧ (u, a) ∉ (tickFanout fetch send snapshot L).delivered := by
  unfold tickFanout
  apply foldl_inv_mem
    (P := fun st : TickState => (u, a) ∉ st.notified ∧ (u, a) ∉ st.delivered)
    (allTopics snapshot) ?_ ({ notified := L, delivered := [] } : TickState)
    ⟨hL, by simp⟩
  intro st t _ hP
  unfold processTopic
  cases hft : fetch t with
  | error e => exact hP
  | ok arts =>
    apply foldl_inv_mem
      (P := fun st : TickState => (u, a) ∉ st.notified ∧ (u, a) ∉ st.delivered)
      arts ?_ st hP
    intro st' b _ hP'
    unfold processArticle
    apply foldl_inv_mem
      (P := fun st : TickState => (u, a) ∉ st.notified ∧ (u, a) ∉ st.delivered)
      snapshot ?_ st' hP'
    intro st'' p _ hP''
    unfold userStep
    split
    · exact processUser_skip_failed hsend hP''
    · exact hP''

theorem cleanFold_not_mem {snapshot : List (Int × List String)} {m : Nat} {L : List Row}
    {x : Row} (hx : x ∉ L) :
    x ∉ snapshot.foldl (fun acc p => cleanLedger acc p.1 m) L :=
  foldl_inv_mem (P := fun acc : List Row => x ∉ acc) snapshot
    (fun acc p _ hacc hmem => hacc (mem_of_mem_cleanLedger hmem)) L hx

theorem has_been_notified_eq_false_iff {db : DB} {u : Int} {a : String} :
    has_been_notified db u a = false ↔ (u, a) ∉ db.notified :=
  notifiedMem_false_iff

theorem rowsOf_singleton_other {u v : Int} {a : String} (hv : v ≠ u) :
    rowsOf [(u, a)] v = [] := by
  unfold rowsOf
  simp [List.filter, Ne.symm hv]

theorem processUser_frame_self {send : Int → String → Bool} {aid : String} {st : TickState}
    {u v : Int} (hv : v ≠ u) :
    rowsOf (processUser send aid st u).notified v = rowsOf st.notified v
      ∧ rowsOf (processUser send aid st u).delivered v = rowsOf st.delivered v := by
  unfold processUser
  split
  · exact ⟨rfl, rfl⟩
  · split
    · refine ⟨rowsOf_notifiedAdd_other hv, ?_⟩
      show rowsOf (st.delivered ++ [(u, aid)]) v = rowsOf st.delivered v
      rw [rowsOf_append, rowsOf_singleton_other hv, List.append_nil]
    · exact ⟨rfl, rfl⟩

theorem processUser_frame_pair {send send' : Int → String → Bool} {u : Int}
    (hagree : ∀ w x, w ≠ u → send' w x = send w x) {aid : String} {w : Int} (hw : w ≠ u)
    {st' st : TickState}
    (hR : (∀ z, z ≠ u → rowsOf st'.notified z = rowsOf st.notified z)
        ∧ (∀ z, z ≠ u → rowsOf st'.delivered z = rowsOf st.delivered z)) :
    (∀ z, z ≠ u → rowsOf (processUser send' aid st' w).notified z
        = rowsOf (processUser send aid st w).notified z)
      ∧ (∀ z, z ≠ u → rowsOf (processUser send' aid st' w).delivered z
        = rowsOf (processUser send aid st w).delivered z) := by
  have hmem : notifiedMem st'.notified w aid = notifiedMem st.notified w aid := by
    unfold notifiedMem
    simp only [decide_eq_decide]
    constructor
    · intro hm
      exact pair_mem_rowsOf.mp (by rw [← hR.1 w hw]; exact pair_mem_rowsOf.mpr hm)
    · intro hm
      exact pair_mem_rowsOf.mp (by rw [hR.1 w hw]; exact pair_mem_rowsOf.mpr hm)
  have hsd : send' w aid = send w aid := hagree w aid hw
  unfold processUser
  rw [hmem, hsd]
  by_cases hm : notifiedMem st.notified w aid = true
  · rw [if_pos hm, if_pos hm]
    exact hR
  · rw [if_neg hm, if_neg hm]
    by_cases hs : send w aid = true
    · rw [if_pos hs, if_pos hs]
      have hnm : (w, aid) ∉ st.notified := by
        intro hmm
        exact hm (by unfold notifiedMem; simp [hmm])
      have hnm' : (w, aid) ∉ st'.notified := by
        intro hmm
        apply hm
        rw [← hmem]
        unfold notifiedMem
        simp [hmm]
      constructor
      · intro z hz
        show rowsOf (notifiedAdd st'.notified w aid) z
            = rowsOf (notifiedAdd st.notified w aid) z
        unfold notifiedAdd
        rw [if_neg hnm', if_neg hnm, rowsOf_append, rowsOf_append, hR.1 z hz]
      · intro z hz
        show rowsOf (st'.delivered ++ [(w, aid)]) z = rowsOf (st.delivered ++ [(w, aid)]) z
        rw [rowsOf_append, rowsOf_append, hR.2 z hz]
    · rw [if_neg hs, if_neg hs]
      exact hR

theorem userStep_frame_pair {send send' : Int → String → Bool} {u : Int}
    (hagree : ∀ w x, w ≠ u → send' w x = send w x) {topic aid : String}
    {p : Int × List String} {st' st : TickState}
    (hR : (∀ z, z ≠ u → rowsOf st'.notified z = rowsOf st.notified z)
        ∧ (∀ z, z ≠ u → rowsOf st'.delivered z = rowsOf st.delivered z)) :
    (∀ z, z ≠ u → rowsOf (userStep send' topic aid st' p).notified z
        = rowsOf (userStep send topic aid st p).notified z)
      ∧ (∀ z, z ≠ u → rowsOf (userStep send' topic aid st' p).delivered z
        = rowsOf (userStep send topic aid st p).delivered z) := by
  unfold userStep
  by_cases htp : topic ∈ p.2
  · rw [if_pos htp, if_pos htp]
    by_cases hpu : p.1 = u
    · constructor
      · intro z hz
        have hz1 : z ≠ p.1 := by rw [hpu]; exact hz
        rw [(@processUser_frame_self send' aid st' p.1 z hz1).1,
          (@processUser_frame_self send aid st p.1 z hz1).1]
        exact hR.1 z hz
      · intro z hz
        have hz1 : z ≠ p.1 := by rw [hpu]; exact hz
        rw [(@processUser_frame_self send' aid st' p.1 z hz1).2,
          (@processUser_frame_self send aid st p.1 z hz1).2]
        exact hR.2 z hz
    · exact processUser_frame_pair hagree hpu hR
  · rw [if_neg htp, if_neg htp]
    exact hR

theorem processArticle_frame_pair {send send' : Int → String → Bool} {u : Int}
    (hagree : ∀ w x, w ≠ u → send' w x = send w x)
    {snapshot : List (Int × List String)} {topic : String} {a : Article}
    {st' st : TickState}
    (hR : (∀ z, z ≠ u → rowsOf st'.notified z = rowsOf st.notified z)
        ∧ (∀ z, z ≠ u → rowsOf st'.delivered z = rowsOf st.delivered z)) :
    (∀ z, z ≠ u → rowsOf (processArticle send' snapshot topic st' a).notified z
        = rowsOf (processArticle send snapshot topic st a).notified z)
      ∧ (∀ z, z ≠ u → rowsOf (processArticle send' snapshot topic st' a).delivered z
        = rowsOf (processArticle send snapshot topic st a).delivered z) := by
  unfold processArticle
  exact foldl_rel
    (R := fun (x y : TickState) =>
      (∀ z, z ≠ u → rowsOf x.notified z = rowsOf y.notified z)
        ∧ (∀ z, z ≠ u → rowsOf x.delivered z = rowsOf y.delivered z))
    (f := userStep send' topic a.id) (g := userStep send topic a.id)
    snapshot (fun x y q _ hRxy => userStep_frame_pair hagree hRxy) st' st hR

theorem processTopic_frame_pair {fetch : String → Except String (List Article)}
    {send send' : Int → String → Bool} {u : Int}
    (hagree : ∀ w x, w ≠ u → send' w x = send w x)
    {snapshot : List (Int × List String)} {t : String} {st' st : TickState}
    (hR : (∀ z, z ≠ u → rowsOf st'.notified z = rowsOf st.notified z)
        ∧ (∀ z, z ≠ u → rowsOf st'.delivered z = rowsOf st.delivered z)) :
    (∀ z, z ≠ u → rowsOf (processTopic fetch send' snapshot st' t).notified z
        = rowsOf (processTopic fetch send snapshot st t).notified z)
      ∧ (∀ z, z ≠ u → rowsOf (processTopic fetch send' snapshot st' t).delivered z
        = rowsOf (processTopic fetch send snapshot st t).delivered z) := by
  unfold processTopic
  cases hft : fetch t with
  | error e => exact hR
  | ok arts =>
    exact foldl_rel
      (R := fun (x y : TickState) =>
        (∀ z, z ≠ u → rowsOf x.notified z = rowsOf y.notified z)
          ∧ (∀ z, z ≠ u → rowsOf x.delivered z = rowsOf y.delivered z))
      (f := processArticle send' snapshot t) (g := processArticle send snapshot t)
      arts (fun x y b _ hRxy => processArticle_frame_pair hagree hRxy) st' st hR

theorem tickFanout_frame_pair {fetch : String → Except String (List Article)}
    {send send' : Int → String → Bool} {u : Int}
    (hagree : ∀ w x, w ≠ u → send' w x = send w x)
    {snapshot : List (Int × List String)} {L : List Row} :
    (∀ z, z ≠ u → rowsOf (tickFanout fetch send' snapshot L).notified z
        = rowsOf (tickFanout fetch send snapshot L).notified z)
      ∧ (∀ z, z ≠ u → rowsOf (tickFanout fetch send' snapshot L).delivered z
        = rowsOf (tickFanout fetch send snapshot L).delivered z) := by
  unfold tickFanout
  exact foldl_rel
    (R := fun (x y : TickState) =>
      (∀ z, z ≠ u → rowsOf x.notified z = rowsOf y.notified z)
        ∧ (∀ z, z ≠ u → rowsOf x.delivered z = rowsOf y.delivered z))
    (f := processTopic fetch send' snapshot) (g := processTopic fetch send snapshot)
    (allTopics snapshot) (fun x y t _ hRxy => processTopic_frame_pair hagree hRxy)
    ({ notified := L, delivered := [] } : TickState)
    ({ notified := L, delivered := [] } : TickState)
    ⟨fun z _ => rfl, fun z _ => rfl⟩

theorem cleanLedger_frame_pair {u : Int} {m : Nat} {w : Int} {L' L : List Row}
    (hR : ∀ z, z ≠ u → rowsOf L' z = rowsOf L z) :
    ∀ z, z ≠ u → rowsOf (cleanLedger L' w m) z = rowsOf (cleanLedger L w m) z := by
  intro z hz
  by_cases hzw : z = w
  · subst hzw
    rw [rowsOf_cleanLedger_self, rowsOf_cleanLedger_self, hR z hz]
  · rw [rowsOf_cleanLedger_other hzw, rowsOf_cleanLedger_other hzw]
    exact hR z hz

theorem cleanFold_frame_pair {u : Int} {m : Nat} {snapshot : List (Int × List String)}
    {L' L : List Row} (hR : ∀ z, z ≠ u → rowsOf L' z = rowsOf L z) :
    ∀ z, z ≠ u → rowsOf (snapshot.foldl (fun acc p => cleanLedger acc p.1 m) L') z
      = rowsOf (snapshot.foldl (fun acc p => cleanLedger acc p.1 m) L) z :=
  foldl_rel (R := fun (x y : List Row) => ∀ z, z ≠ u → rowsOf x z = rowsOf y z)
    (f := fun acc p => cleanLedger acc p.1 m) (g := fun acc p => cleanLedger acc p.1 m)
    snapshot (fun x y p _ hRxy => cleanLedger_frame_pair hRxy) L' L hR

/-- C1: the ledger record is written only after the delivery call
succeeds: if the send to user u for article a fails and the pair was
unrecorded before the tick, then add_notified_article is never reached for
the pair - after the tick has_been_notified is still false and the pair
appears in no delivery of the tick; and swapping the delivery function for
any other that agrees on every user other than u changes nothing for any
other user v: v's ledger rows and v's deliveries are identical in both
runs, so other users of the same article proceed unaffected. -/
theorem c1_failed_send_not_recorded (cfg : Config)
    (fetch : String → Except String (List Article))
    (send send' : Int → String → Bool) (db : DB) (u : Int) (a : String) (v : Int)
    (hsend : send u a = false)
    (hstart : has_been_notified db u a = false)
    (hagree : ∀ w x, w ≠ u → send' w x = send w x)
    (hv : v ≠ u) :
    has_been_notified (check_new_articles cfg fetch send db).1 u a = false
      ∧ (u, a) ∉ (check_new_articles cfg fetch send db).2
      ∧ rowsOf (check_new_articles cfg fetch send' db).1.notified v
          = rowsOf (check_new_articles cfg fetch send db).1.notified v
      ∧ rowsOf (check_new_articles cfg fetch send' db).2 v
          = rowsOf (check_new_articles cfg fetch send db).2 v := by
  have hstart' : (u, a) ∉ db.notified := has_been_notified_eq_false_iff.mp hstart
  by_cases hemp : (get_all_subscriptions db).isEmpty = true
  · rw [check_new_articles_empty cfg fetch send db hemp,
      check_new_articles_empty cfg fetch send' db hemp]
    exact ⟨hstart, by simp, rfl, rfl⟩
  · have hskip : (u, a) ∉ (tickFanout fetch send (get_all_subscriptions db) db.notified).notified
        ∧ (u, a) ∉ (tickFanout fetch send (get_all_subscriptions db) db.notified).delivered :=
      tickFanout_skip_failed hsend hstart'
    have hfrm : (∀ z, z ≠ u →
          rowsOf (tickFanout fetch send' (get_all_subscriptions db) db.notified).notified z
            = rowsOf (tickFanout fetch send (get_all_subscriptions db) db.notified).notified z)
        ∧ (∀ z, z ≠ u →
          rowsOf (tickFanout fetch send' (get_all_subscriptions db) db.notified).delivered z
            = rowsOf (tickFanout fetch send (get_all_subscriptions db) db.notified).delivered z) :=
      tickFanout_frame_pair hagree
    rw [check_new_articles_eq cfg fetch send db hemp,
      check_new_articles_eq cfg fetch send' db hemp]
    refine ⟨?_, ?_, ?_, ?_⟩
    · rw [has_been_notified_eq_false_iff]
      exact cleanFold_not_mem hskip.1
    · exact hskip.2
    · exact cleanFold_frame_pair hfrm.1 v hv
    · exact hfrm.2 v hv

theorem c1_failed_send_not_recorded_witness :
    has_been_notified (check_new_articles defaultConfig fetchTick sendFail1 dbTick).1
        1 "a1" = false
      ∧ (1, "a1") ∉ (check_new_articles defaultConfig fetchTick sendFail1 dbTick).2
      ∧ rowsOf (check_new_articles defaultConfig fetchTick sendOk dbTick).1.notified 2
          = rowsOf (check_new_articles defaultConfig fetchTick sendFail1 dbTick).1.notified 2
      ∧ rowsOf (check_new_articles defaultConfig fetchTick sendOk dbTick).2 2
          = rowsOf (check_new_articles defaultConfig fetchTick sendFail1 dbTick).2 2 :=
  c1_failed_send_not_recorded defaultConfig fetchTick sendFail1 sendOk dbTick 1 "a1" 2
    (by decide) (by decide)
    (by
      intro w x hw
      simp [sendOk, sendFail1, hw])
    (by decide)
